import Mathlib

/-!
# kluster: the kubeconfig loader chain (`pkg/kubeconfig/loader.go`)

A shallow embedding of the loader chain of `kluster` and the properties of it
that its specification states.

Modelling conventions.

* A Go `string` is a Lean `String`; a Go slice is a `List`; `append(s, x)` is
  `s ++ [x]`.
* A Go `map[string]bool` that is only ever read with `m[k]` and written with
  `m[k] = true` is a function `String → Bool` (absent keys read as `false`).
* A Go `map[string]*T` that is only read is an association list; its lookup is
  `List.lookup`.
* A Go `(value, error)` result is an `Except Error value`, except for
  `clientcmd.LoadFromFile`, whose two components `getConfigFromFile` inspects
  independently and which is therefore kept as a pair of options.
* Everything that comes from the file system or from `client-go` (the result of
  `ioutil.ReadDir`, of `rule.GetStartingConfig()`, of `clientcmd.LoadFromFile`,
  the constant `clientcmd.RecommendedConfigDir`, `filepath.Join`, the descriptor
  built by `clientcmd.NewDefaultClientConfigLoadingRules()`) is a parameter.
-/

namespace Kluster

/-! ## Data model -/

/-- A Go `error` value; `NotExist` is what `os.IsNotExist` reports for it. -/
structure Error where
  Msg : String
  NotExist : Bool
deriving DecidableEq, Repr

/-- The function `os.IsNotExist`. -/
def IsNotExist (err : Error) : Bool := err.NotExist

/-- The fields of `os.FileInfo` that the loader reads: `Name()` and `IsDir()`. -/
structure FileInfo where
  Name : String
  IsDir : Bool
deriving DecidableEq, Repr

/-- The type `clientcmdapi.Cluster`, reduced to the field `kluster` prints. -/
structure Cluster where
  Server : String
deriving DecidableEq, Repr

/-- The type `clientcmdapi.Context`. -/
structure Context where
  Cluster : String
  AuthInfo : String
deriving DecidableEq, Repr

/-- The type `clientcmdapi.AuthInfo`, reduced to one credential field. -/
structure AuthInfo where
  Token : String
deriving DecidableEq, Repr

/-- The type `clientcmdapi.Config`: three name-keyed maps and the current-context
selector. -/
structure Config where
  Clusters : List (String × Cluster)
  AuthInfos : List (String × AuthInfo)
  Contexts : List (String × Context)
  CurrentContext : String
deriving DecidableEq, Repr

/-- The function `clientcmdapi.NewConfig`: every map empty, no current context. -/
def NewConfig : Config :=
  { Clusters := [], AuthInfos := [], Contexts := [], CurrentContext := "" }

/-- The type `clientcmd.ClientConfigLoadingRules`: the fields a source descriptor
carries. `ExplicitPath` is the only one `loader.go` reads or writes. -/
structure ClientConfigLoadingRules where
  ExplicitPath : String
  Precedence : List String
deriving DecidableEq, Repr

/-- The type `ConfigLoader`: `[]*clientcmd.ClientConfigLoadingRules`. -/
abbrev ConfigLoader := List ClientConfigLoadingRules

/-- The constant `kubeconfigSuffix`. -/
def kubeconfigSuffix : String := ".kubeconfig"

/-- The function `strings.HasSuffix`. Go compares bytes and this compares
characters; the two agree on text, the suffix here being ASCII. -/
def HasSuffix (s suffix : String) : Bool := suffix.data.isSuffixOf s.data

/-! ## `deduplicate` and `deduplicateFiles` -/

/-- One iteration of the loop of `deduplicate`, on the state
`(encountered, ret)`. -/
def deduplicateStep (st : (String → Bool) × List String) (x : String) :
    (String → Bool) × List String :=
  if st.1 x then st
  else (fun k => if k = x then true else st.1 k, st.2 ++ [x])

/-- The function `deduplicate` of `loader.go`. -/
def deduplicate (s : List String) : List String :=
  (s.foldl deduplicateStep (fun _ => false, [])).2

/-- One iteration of the loop of `deduplicateFiles`, on the state
`(encountered, ret)`. -/
def deduplicateFilesStep (st : (String → Bool) × List FileInfo) (f : FileInfo) :
    (String → Bool) × List FileInfo :=
  if st.1 f.Name then st
  else (fun k => if k = f.Name then true else st.1 k, st.2 ++ [f])

/-- The function `deduplicateFiles` of `loader.go`. -/
def deduplicateFiles (files : List FileInfo) : List FileInfo :=
  (files.foldl deduplicateFilesStep (fun _ => false, [])).2

/-! ## `NewDefaultConfigLoader` -/

/-- One iteration of the loop of `NewDefaultConfigLoader` over the deduplicated
listing, on the state `chain`. -/
def chainStep (RecommendedConfigDir : String) (Join : String → String → String)
    (chain : ConfigLoader) (f : FileInfo) : ConfigLoader :=
  if f.IsDir then chain
  else if HasSuffix f.Name kubeconfigSuffix then
    chain ++ [{ ExplicitPath := Join RecommendedConfigDir f.Name, Precedence := [] }]
  else chain

/-- The function `NewDefaultConfigLoader`. `defaultRules` is the descriptor
`clientcmd.NewDefaultClientConfigLoadingRules()` and `ReadDir` the result of
`ioutil.ReadDir(clientcmd.RecommendedConfigDir)`. -/
def NewDefaultConfigLoader (defaultRules : ClientConfigLoadingRules)
    (RecommendedConfigDir : String) (Join : String → String → String)
    (ReadDir : Except Error (List FileInfo)) : ConfigLoader :=
  let chain : ConfigLoader := [] ++ [defaultRules]
  match ReadDir with
  | .error _ => []
  | .ok fileList =>
    (deduplicateFiles fileList).foldl (chainStep RecommendedConfigDir Join) chain

/-! ## `GetStartingConfig` and `GetConfigs` -/

/-- The method `ConfigLoader.GetStartingConfig`. `read r` is the result of
`r.GetStartingConfig()` on a descriptor and `defaultStart` that of
`clientcmd.NewDefaultPathOptions().GetStartingConfig()`. -/
def GetStartingConfig (read : ClientConfigLoadingRules → Except Error Config)
    (defaultStart : Except Error Config) (l : ConfigLoader) : Except Error Config :=
  match l with
  | [] => defaultStart
  | first :: _ => read first

/-- The three results of `ConfigLoader.GetConfigs`. -/
structure GetConfigsResult where
  files : List String
  configs : List Config
  err : Option Error
deriving DecidableEq, Repr

/-- One iteration of the loop of `GetConfigs`, on the state `(files, configs)`. -/
def getConfigsStep (read : ClientConfigLoadingRules → Except Error Config)
    (st : List String × List Config) (rule : ClientConfigLoadingRules) :
    List String × List Config :=
  match read rule with
  | .error _ => st
  | .ok cfg => (st.1 ++ [rule.ExplicitPath], st.2 ++ [cfg])

/-- The method `ConfigLoader.GetConfigs`: the third result is the unnamed `error`
result, which the bare `return` leaves at `nil`. -/
def GetConfigs (read : ClientConfigLoadingRules → Except Error Config)
    (l : ConfigLoader) : GetConfigsResult :=
  let st := l.foldl (getConfigsStep read) ([], [])
  { files := st.1, configs := st.2, err := none }

/-! ## `getConfigFromFile` -/

/-- The function `getConfigFromFile`. `LoadFromFile` is
`clientcmd.LoadFromFile`, returning the pair `(config, err)` with `none` for
`nil`; `config.getD NewConfig` is the replacement of a `nil` configuration by
`clientcmdapi.NewConfig()`. -/
def getConfigFromFile (LoadFromFile : String → Option Config × Option Error)
    (filename : String) : Option Config × Option Error :=
  let (config, err) := LoadFromFile filename
  match err with
  | some e =>
    if !IsNotExist e then (none, some e)
    else (some (config.getD NewConfig), none)
  | none => (some (config.getD NewConfig), none)

/-! ## Specification-level definitions -/

/-- The entries of `xs` whose key does not occur among the keys of `earlier` nor
at an earlier position of `xs`: "remove any entry whose name was already seen
earlier in the listing, keeping the first occurrence's position". -/
def keepFirstFrom {α : Type} (key : α → String) : List α → List α → List α
  | _, [] => []
  | earlier, x :: rest =>
    if key x ∈ earlier.map key then keepFirstFrom key (earlier ++ [x]) rest
    else x :: keepFirstFrom key (earlier ++ [x]) rest

/-- Stable, order-preserving removal of the entries whose name was seen earlier. -/
def keepFirstByName (files : List FileInfo) : List FileInfo :=
  keepFirstFrom FileInfo.Name [] files

/-- Stable, order-preserving removal of the strings seen earlier. -/
def keepFirst (s : List String) : List String :=
  keepFirstFrom id [] s

/-- The filter of the scanner: a regular entry whose name ends with
`.kubeconfig`. -/
def isKubeconfigFile (f : FileInfo) : Bool :=
  !f.IsDir && HasSuffix f.Name kubeconfigSuffix

/-- The descriptor `NewDefaultConfigLoader` appends for a discovered file. -/
def discoveredRule (RecommendedConfigDir : String) (Join : String → String → String)
    (f : FileInfo) : ClientConfigLoadingRules :=
  { ExplicitPath := Join RecommendedConfigDir f.Name, Precedence := [] }

/-- The output of the scanner as `NewDefaultConfigLoader` computes it:
`deduplicateFiles`, then the directory and suffix filter. -/
def scannerOutput (fileList : List FileInfo) : List FileInfo :=
  (deduplicateFiles fileList).filter isKubeconfigFile

/-- The loop body shared by `deduplicate` and `deduplicateFiles`, for an
arbitrary key. -/
def keyStep {α : Type} (key : α → String) (st : (String → Bool) × List α) (x : α) :
    (String → Bool) × List α :=
  if st.1 (key x) then st
  else (fun k => if k = key x then true else st.1 k, st.2 ++ [x])

/-- The configurations a chain reads successfully, in chain order. -/
def readConfigs (read : ClientConfigLoadingRules → Except Error Config)
    (l : ConfigLoader) : List Config :=
  l.filterMap (fun r => (read r).toOption)

/-- The merge the specification describes: in every mapping an entry of a later
source overwrites the entry with the same name of an earlier one (`List.lookup`
returns the first hit, so later sources are put first), and the current context
is the first non-empty one. -/
def mergeConfigs (cfgs : List Config) : Config :=
  { Clusters := (cfgs.reverse.map Config.Clusters).flatten
    AuthInfos := (cfgs.reverse.map Config.AuthInfos).flatten
    Contexts := (cfgs.reverse.map Config.Contexts).flatten
    CurrentContext := ((cfgs.map Config.CurrentContext).find? (fun c => c ≠ "")).getD "" }

/-- The statement of the specification that the effective configuration is the
merge of every source of the chain. -/
def EffectiveIsMerge (read : ClientConfigLoadingRules → Except Error Config)
    (defaultStart : Except Error Config) (l : ConfigLoader) : Prop :=
  ∃ c, GetStartingConfig read defaultStart l = .ok c ∧
    ∀ name,
      c.Clusters.lookup name = (mergeConfigs (readConfigs read l)).Clusters.lookup name ∧
      c.Contexts.lookup name = (mergeConfigs (readConfigs read l)).Contexts.lookup name ∧
      c.AuthInfos.lookup name = (mergeConfigs (readConfigs read l)).AuthInfos.lookup name

/-- The statement of the specification that the effective current context is the
one of the first source that defines a non-empty one. -/
def CurrentContextIsFirstNonEmpty (read : ClientConfigLoadingRules → Except Error Config)
    (defaultStart : Except Error Config) (l : ConfigLoader) : Prop :=
  ∃ c, GetStartingConfig read defaultStart l = .ok c ∧
    c.CurrentContext = (mergeConfigs (readConfigs read l)).CurrentContext

/-- The scanner as the specification words it, as two passes: keep the entries
that are not directories and end with the suffix, then remove the entries whose
name was seen earlier among those kept. -/
def scanFilterThenDedup (fileList : List FileInfo) : List FileInfo :=
  keepFirstByName (fileList.filter isKubeconfigFile)

/-- The scanner as the specification words it, with "seen earlier" read as seen
earlier in the listing: an entry is kept when it is not a directory, its name
ends with the suffix, and no entry before it in the listing (`earlier`) carries
its name. -/
def scanSeenInListing : List FileInfo → List FileInfo → List FileInfo
  | _, [] => []
  | earlier, f :: rest =>
    if isKubeconfigFile f = true ∧ f.Name ∉ earlier.map FileInfo.Name then
      f :: scanSeenInListing (earlier ++ [f]) rest
    else scanSeenInListing (earlier ++ [f]) rest

/-- The descriptor `clientcmd.NewDefaultClientConfigLoadingRules()` returns
(`client-go`): it fills `Precedence` with the files named by `KUBECONFIG`, or
with the recommended home file, and leaves `ExplicitPath` at its zero value. -/
def NewDefaultClientConfigLoadingRules (precedence : List String) :
    ClientConfigLoadingRules :=
  { ExplicitPath := "", Precedence := precedence }

/-! ## Example file systems -/

/-- A `filepath.Join` for the examples: names of a listing hold no separator. -/
def exJoin (dir name : String) : String := dir ++ "/" ++ name

/-- The recommended directory of the examples. -/
def exDir : String := "/home/u/.kube"

/-- The primary descriptor of the examples. -/
def exPrimary : ClientConfigLoadingRules :=
  NewDefaultClientConfigLoadingRules ["/home/u/.kube/config"]

/-- A discovered descriptor of the examples. -/
def exExtra : ClientConfigLoadingRules :=
  { ExplicitPath := "/home/u/.kube/extra.kubeconfig", Precedence := [] }

/-- A second discovered descriptor, whose file is malformed. -/
def exBroken : ClientConfigLoadingRules :=
  { ExplicitPath := "/home/u/.kube/broken.kubeconfig", Precedence := [] }

/-- Primary file: cluster `A` at `server1`, current context `ctx1`. -/
def exPrimaryConfig : Config :=
  { Clusters := [("A", ⟨"server1"⟩)]
    AuthInfos := [("alice", ⟨"t1"⟩)]
    Contexts := [("ctx1", ⟨"A", "alice"⟩)]
    CurrentContext := "ctx1" }

/-- Discovered file: cluster `A` at `server2`, cluster `B`, current context
`ctx2`. -/
def exExtraConfig : Config :=
  { Clusters := [("A", ⟨"server2"⟩), ("B", ⟨"server3"⟩)]
    AuthInfos := [("bob", ⟨"t2"⟩)]
    Contexts := [("ctx2", ⟨"B", "bob"⟩)]
    CurrentContext := "ctx2" }

/-- A primary file that selects no current context. -/
def exPrimaryNoContext : Config :=
  { exPrimaryConfig with CurrentContext := "" }

/-- The error of a malformed file. -/
def exParseError : Error := { Msg := "yaml: line 1: mapping values", NotExist := false }

/-- The error of a missing file. -/
def exMissingError : Error := { Msg := "no such file or directory", NotExist := true }

/-- A file system in which the primary and the extra file parse and the broken
one does not. -/
def exRead (r : ClientConfigLoadingRules) : Except Error Config :=
  if r = exPrimary then .ok exPrimaryConfig
  else if r = exExtra then .ok exExtraConfig
  else .error exParseError

/-- The same file system with a primary file that selects no current context. -/
def exReadNoContext (r : ClientConfigLoadingRules) : Except Error Config :=
  if r = exPrimary then .ok exPrimaryNoContext
  else if r = exExtra then .ok exExtraConfig
  else .error exParseError

/-- A file system in which the primary file is malformed. -/
def exReadPrimaryBroken (r : ClientConfigLoadingRules) : Except Error Config :=
  if r = exExtra then .ok exExtraConfig else .error exParseError

/-- A sequence of entries in which one name occurs twice. -/
def exListingClash : List FileInfo :=
  [⟨"a.kubeconfig", true⟩, ⟨"a.kubeconfig", false⟩]

/-- A listing of the recommended directory, sorted by name as `ioutil.ReadDir`
returns it. -/
def exListing : List FileInfo :=
  [⟨"broken.kubeconfig", false⟩, ⟨"cache", true⟩, ⟨"config", false⟩,
   ⟨"extra.kubeconfig", false⟩]

/-- A `clientcmd.LoadFromFile` for the examples. -/
def exLoadFromFile (filename : String) : Option Config × Option Error :=
  if filename = "/home/u/.kube/config" then (some exPrimaryConfig, none)
  else if filename = "/home/u/.kube/broken.kubeconfig" then (none, some exParseError)
  else (none, some exMissingError)

/-! ## The deduplication loops: proofs -/

theorem deduplicateStep_eq : deduplicateStep = keyStep id := rfl

theorem deduplicateFilesStep_eq : deduplicateFilesStep = keyStep FileInfo.Name := rfl

/-- Loop invariant: when `encountered` holds exactly the keys of the entries
already visited, the loop appends to `ret` the first occurrences that remain. -/
theorem foldl_keyStep {α : Type} (key : α → String) (xs : List α) :
    ∀ (earlier : List α) (m : String → Bool) (ret : List α),
      (∀ k, m k = true ↔ k ∈ earlier.map key) →
      (xs.foldl (keyStep key) (m, ret)).2 = ret ++ keepFirstFrom key earlier xs := by
  induction xs with
  | nil => intro earlier m ret _; simp [keepFirstFrom]
  | cons x rest ih =>
    intro earlier m ret hm
    rw [List.foldl_cons]
    by_cases hx : m (key x) = true
    · have hmem : key x ∈ earlier.map key := (hm _).1 hx
      have hstep : keyStep key (m, ret) x = (m, ret) := by simp [keyStep, hx]
      rw [hstep, ih (earlier ++ [x]) m ret]
      · simp only [keepFirstFrom, if_pos hmem]
      · intro k
        rw [hm k]
        simp only [List.map_append, List.map_cons, List.map_nil, List.mem_append,
          List.mem_singleton]
        constructor
        · exact Or.inl
        · rintro (h | h)
          · exact h
          · exact h ▸ hmem
    · have hmem : key x ∉ earlier.map key := fun h => hx ((hm _).2 h)
      have hstep : keyStep key (m, ret) x
          = (fun k => if k = key x then true else m k, ret ++ [x]) := by
        simp [keyStep, hx]
      rw [hstep, ih (earlier ++ [x]) _ (ret ++ [x])]
      · simp only [keepFirstFrom, if_neg hmem, List.append_assoc, List.singleton_append]
      · intro k
        simp only [List.map_append, List.map_cons, List.map_nil, List.mem_append,
          List.mem_singleton]
        by_cases hk : k = key x
        · simp [hk]
        · simp [hk, hm k]

theorem deduplicateFiles_eq_keepFirstByName (files : List FileInfo) :
    deduplicateFiles files = keepFirstByName files := by
  unfold deduplicateFiles keepFirstByName
  rw [deduplicateFilesStep_eq, foldl_keyStep FileInfo.Name files [] _ [] (by simp)]
  simp

theorem deduplicate_eq_keepFirst (s : List String) : deduplicate s = keepFirst s := by
  unfold deduplicate keepFirst
  rw [deduplicateStep_eq, foldl_keyStep id s [] _ [] (by simp)]
  simp

/-! ## Properties of `keepFirstFrom` -/

theorem keepFirstFrom_sublist {α : Type} (key : α → String) (xs : List α) :
    ∀ earlier, (keepFirstFrom key earlier xs).Sublist xs := by
  induction xs with
  | nil => intro earlier; simp [keepFirstFrom]
  | cons x rest ih =>
    intro earlier
    simp only [keepFirstFrom]
    split
    · exact (ih _).trans (List.sublist_cons_self x rest)
    · exact (ih _).cons₂ x

theorem keepFirstFrom_key_not_mem {α : Type} (key : α → String) (xs : List α) :
    ∀ earlier, ∀ y ∈ keepFirstFrom key earlier xs, key y ∉ earlier.map key := by
  induction xs with
  | nil => intro earlier y hy; simp [keepFirstFrom] at hy
  | cons x rest ih =>
    intro earlier y hy
    simp only [keepFirstFrom] at hy
    have hrest : ∀ z ∈ keepFirstFrom key (earlier ++ [x]) rest, key z ∉ earlier.map key := by
      intro z hz hmem
      exact ih (earlier ++ [x]) z hz (by simp [hmem])
    split at hy
    · exact hrest y hy
    · rename_i hx
      rcases List.mem_cons.1 hy with h | h
      · exact h ▸ hx
      · exact hrest y h

theorem keepFirstFrom_nodup {α : Type} (key : α → String) (xs : List α) :
    ∀ earlier, ((keepFirstFrom key earlier xs).map key).Nodup := by
  induction xs with
  | nil => intro earlier; simp [keepFirstFrom]
  | cons x rest ih =>
    intro earlier
    simp only [keepFirstFrom]
    split
    · exact ih _
    · rw [List.map_cons, List.nodup_cons]
      refine ⟨?_, ih _⟩
      intro hmem
      obtain ⟨y, hy, hky⟩ := List.mem_map.1 hmem
      exact keepFirstFrom_key_not_mem key rest (earlier ++ [x]) y hy (by simp [hky])

theorem keepFirstFrom_of_nodup {α : Type} (key : α → String) (xs : List α) :
    ∀ earlier, (xs.map key).Nodup → (∀ x ∈ xs, key x ∉ earlier.map key) →
      keepFirstFrom key earlier xs = xs := by
  induction xs with
  | nil => intro earlier _ _; simp [keepFirstFrom]
  | cons x rest ih =>
    intro earlier hnd hdis
    rw [List.map_cons, List.nodup_cons] at hnd
    have hx : key x ∉ earlier.map key := hdis x (List.mem_cons_self _ _)
    simp only [keepFirstFrom, if_neg hx]
    rw [ih (earlier ++ [x]) hnd.2]
    intro y hy hmem
    simp only [List.map_append, List.map_cons, List.map_nil, List.mem_append,
      List.mem_singleton] at hmem
    rcases hmem with h | h
    · exact hdis y (List.mem_cons_of_mem _ hy) h
    · exact hnd.1 (h ▸ List.mem_map_of_mem key hy)

theorem keepFirstFrom_map_key {α : Type} (key : α → String) (xs : List α) :
    ∀ earlier, (keepFirstFrom key earlier xs).map key
      = keepFirstFrom id (earlier.map key) (xs.map key) := by
  induction xs with
  | nil => intro earlier; simp [keepFirstFrom]
  | cons x rest ih =>
    intro earlier
    simp only [keepFirstFrom, List.map_cons, List.map_id, id]
    have h := ih (earlier ++ [x])
    simp only [List.map_append, List.map_cons, List.map_nil] at h
    split
    · exact h
    · rw [List.map_cons, h]

/-! ## The chain built by `NewDefaultConfigLoader` -/

theorem foldl_chainStep (dir : String) (Join : String → String → String)
    (fs : List FileInfo) :
    ∀ chain : ConfigLoader, fs.foldl (chainStep dir Join) chain
      = chain ++ (fs.filter isKubeconfigFile).map (discoveredRule dir Join) := by
  induction fs with
  | nil => intro chain; simp
  | cons f rest ih =>
    intro chain
    rw [List.foldl_cons, ih]
    cases hd : f.IsDir <;> cases hs : HasSuffix f.Name kubeconfigSuffix <;>
      simp [chainStep, isKubeconfigFile, discoveredRule, hd, hs]

theorem NewDefaultConfigLoader_ok (defaultRules : ClientConfigLoadingRules) (dir : String)
    (Join : String → String → String) (fileList : List FileInfo) :
    NewDefaultConfigLoader defaultRules dir Join (.ok fileList)
      = defaultRules :: (scannerOutput fileList).map (discoveredRule dir Join) := by
  simp [NewDefaultConfigLoader, foldl_chainStep, scannerOutput]

/-! ## `GetConfigs`: the loop -/

theorem foldl_getConfigsStep (read : ClientConfigLoadingRules → Except Error Config)
    (l : ConfigLoader) :
    ∀ (files : List String) (configs : List Config),
      l.foldl (getConfigsStep read) (files, configs)
        = (files ++ (l.filter (fun r => (read r).toOption.isSome)).map
              ClientConfigLoadingRules.ExplicitPath,
           configs ++ l.filterMap (fun r => (read r).toOption)) := by
  induction l with
  | nil => intro files configs; simp
  | cons r rest ih =>
    intro files configs
    rw [List.foldl_cons]
    cases hr : read r with
    | error e => simp [getConfigsStep, hr, ih, Except.toOption]
    | ok c => simp [getConfigsStep, hr, ih, Except.toOption]

theorem zip_ok_sources (read : ClientConfigLoadingRules → Except Error Config)
    (l : ConfigLoader) :
    List.zip ((l.filter (fun r => (read r).toOption.isSome)).map
        ClientConfigLoadingRules.ExplicitPath)
      (l.filterMap (fun r => (read r).toOption))
      = l.filterMap (fun r => (read r).toOption.map (fun c => (r.ExplicitPath, c))) := by
  induction l with
  | nil => simp
  | cons r rest ih =>
    cases hr : read r with
    | error e =>
      have ho : (read r).toOption = none := by rw [hr]; rfl
      simp [ho, ih]
    | ok c =>
      have ho : (read r).toOption = some c := by rw [hr]; rfl
      simp [ho, ih]

theorem GetConfigs_files_eq (read : ClientConfigLoadingRules → Except Error Config)
    (l : ConfigLoader) :
    (GetConfigs read l).files
      = (l.filter (fun r => (read r).toOption.isSome)).map
          ClientConfigLoadingRules.ExplicitPath := by
  simp [GetConfigs, foldl_getConfigsStep]

/-! ## The claims -/

/-- C3. `GetConfigs` returns a nil error and two index-aligned sequences of equal
length: the `ExplicitPath` and the unmodified read result of exactly the sources
whose read succeeds, in chain order; nothing is merged or deduplicated. -/
theorem GetConfigs_lists_ok_sources (read : ClientConfigLoadingRules → Except Error Config)
    (l : ConfigLoader) :
    (GetConfigs read l).err = none ∧
    (GetConfigs read l).files.length = (GetConfigs read l).configs.length ∧
    (GetConfigs read l).files
      = (l.filter (fun r => (read r).toOption.isSome)).map
          ClientConfigLoadingRules.ExplicitPath ∧
    (GetConfigs read l).configs = l.filterMap (fun r => (read r).toOption) ∧
    List.zip (GetConfigs read l).files (GetConfigs read l).configs
      = l.filterMap (fun r => (read r).toOption.map (fun c => (r.ExplicitPath, c))) := by
  have hf : (GetConfigs read l).files
      = (l.filter (fun r => (read r).toOption.isSome)).map
          ClientConfigLoadingRules.ExplicitPath := by
    simp [GetConfigs, foldl_getConfigsStep]
  have hc : (GetConfigs read l).configs = l.filterMap (fun r => (read r).toOption) := by
    simp [GetConfigs, foldl_getConfigsStep]
  have hz := zip_ok_sources read l
  refine ⟨rfl, ?_, hf, hc, ?_⟩
  · have hlen := congrArg List.length hz
    rw [List.length_zip] at hlen
    rw [hf, hc]
    have h1 : ((l.filter (fun r => (read r).toOption.isSome)).map
        ClientConfigLoadingRules.ExplicitPath).length
        = (l.filterMap (fun r => (read r).toOption)).length := by
      clear hlen hz hf hc
      induction l with
      | nil => simp
      | cons r rest ih =>
        cases hr : read r with
        | error e =>
          have ho : (read r).toOption = none := by rw [hr]; rfl
          simpa [ho] using ih
        | ok c =>
          have ho : (read r).toOption = some c := by rw [hr]; rfl
          simpa [ho] using ih
    exact h1
  · rw [hf, hc, hz]

/-- Two sources that both define cluster `A`, with different servers, are listed
as two configurations, each with its own `A` and its own file; the source whose
read fails is left out. -/
theorem GetConfigs_keeps_both_definitions :
    GetConfigs exRead [exExtra, exBroken, exPrimary]
      = { files := ["/home/u/.kube/extra.kubeconfig", ""]
          configs := [exExtraConfig, exPrimaryConfig]
          err := none } ∧
    exExtraConfig.Clusters.lookup "A" = some ⟨"server2"⟩ ∧
    exPrimaryConfig.Clusters.lookup "A" = some ⟨"server1"⟩ := by
  decide

/-- C8. On a non-empty chain `GetStartingConfig` fails exactly when the read of
the first source fails, with that source's error; whatever the reads of the
later sources do, a successful read of the first source is the result. -/
theorem GetStartingConfig_fails_iff_primary_fails
    (read : ClientConfigLoadingRules → Except Error Config)
    (defaultStart : Except Error Config) (first : ClientConfigLoadingRules)
    (rest : ConfigLoader) :
    (∀ e, GetStartingConfig read defaultStart (first :: rest) = .error e
        ↔ read first = .error e) ∧
    (∀ c, read first = .ok c →
        GetStartingConfig read defaultStart (first :: rest) = .ok c) := by
  constructor
  · intro e; exact Iff.rfl
  · intro c h; exact h

/-- C8 at a chain whose discovered source is malformed, and at one whose primary
source is. -/
theorem GetStartingConfig_fails_iff_primary_fails_witness :
    exRead exBroken = .error exParseError ∧
    GetStartingConfig exRead (.error exMissingError) [exPrimary, exBroken, exExtra]
      = .ok exPrimaryConfig ∧
    GetStartingConfig exReadPrimaryBroken (.ok NewConfig) [exPrimary, exExtra]
      = .error exParseError :=
  ⟨rfl,
   (GetStartingConfig_fails_iff_primary_fails exRead (.error exMissingError) exPrimary
      [exBroken, exExtra]).2 exPrimaryConfig rfl,
   ((GetStartingConfig_fails_iff_primary_fails exReadPrimaryBroken (.ok NewConfig) exPrimary
      [exExtra]).1 exParseError).2 rfl⟩

/-- C10. `deduplicate` and `deduplicateFiles` are idempotent, are the identity on
input without repeated names, and `deduplicateFiles` acts on the names as
`deduplicate` does. -/
theorem deduplicate_idempotent_and_identity (s : List String) (files : List FileInfo) :
    deduplicate (deduplicate s) = deduplicate s ∧
    deduplicateFiles (deduplicateFiles files) = deduplicateFiles files ∧
    (s.Nodup → deduplicate s = s) ∧
    ((files.map FileInfo.Name).Nodup → deduplicateFiles files = files) ∧
    (deduplicateFiles files).map FileInfo.Name = deduplicate (files.map FileInfo.Name) := by
  have idS : ∀ t : List String, t.Nodup → deduplicate t = t := by
    intro t ht
    rw [deduplicate_eq_keepFirst]
    exact keepFirstFrom_of_nodup id t [] (by simpa using ht) (by simp)
  have idF : ∀ fs : List FileInfo, (fs.map FileInfo.Name).Nodup → deduplicateFiles fs = fs := by
    intro fs hfs
    rw [deduplicateFiles_eq_keepFirstByName]
    exact keepFirstFrom_of_nodup FileInfo.Name fs [] hfs (by simp)
  refine ⟨?_, ?_, idS s, idF files, ?_⟩
  · apply idS
    rw [deduplicate_eq_keepFirst]
    simpa using keepFirstFrom_nodup id s []
  · apply idF
    rw [deduplicateFiles_eq_keepFirstByName]
    exact keepFirstFrom_nodup FileInfo.Name files []
  · rw [deduplicateFiles_eq_keepFirstByName, deduplicate_eq_keepFirst]
    exact keepFirstFrom_map_key FileInfo.Name files []

/-- C10 at a listing with a repeated name and at one without. -/
theorem deduplicate_idempotent_and_identity_witness :
    deduplicate ["b", "a", "c"] = ["b", "a", "c"] ∧
    deduplicateFiles exListing = exListing ∧
    deduplicate (deduplicate ["a", "b", "a"]) = deduplicate ["a", "b", "a"] ∧
    deduplicate ["a", "b", "a"] = ["a", "b"] :=
  ⟨(deduplicate_idempotent_and_identity ["b", "a", "c"] exListing).2.2.1 (by decide),
   (deduplicate_idempotent_and_identity ["b", "a", "c"] exListing).2.2.2.1 (by decide),
   (deduplicate_idempotent_and_identity ["a", "b", "a"] exListingClash).1,
   by decide⟩

/-- C6. The scanner's output, `deduplicateFiles` followed by the directory and
suffix filter of `NewDefaultConfigLoader`, holds no two entries with the same
name, and each of its entries is an entry of the listing, in listing order; the
chain of `NewDefaultConfigLoader` is built from it. -/
theorem scannerOutput_nodup_and_from_listing (fileList : List FileInfo) :
    ((scannerOutput fileList).map FileInfo.Name).Nodup ∧
    (∀ f ∈ scannerOutput fileList, f ∈ fileList) ∧
    (scannerOutput fileList).Sublist fileList ∧
    (∀ (defaultRules : ClientConfigLoadingRules) (dir : String)
        (Join : String → String → String),
      NewDefaultConfigLoader defaultRules dir Join (.ok fileList)
        = defaultRules :: (scannerOutput fileList).map (discoveredRule dir Join)) := by
  have hsub : (scannerOutput fileList).Sublist fileList := by
    unfold scannerOutput
    rw [deduplicateFiles_eq_keepFirstByName]
    exact (List.filter_sublist _).trans (keepFirstFrom_sublist FileInfo.Name fileList [])
  refine ⟨?_, fun f hf => hsub.subset hf, hsub, ?_⟩
  · unfold scannerOutput
    rw [deduplicateFiles_eq_keepFirstByName]
    exact ((keepFirstFrom_nodup FileInfo.Name fileList []).sublist
      ((List.filter_sublist _).map FileInfo.Name))
  · intro defaultRules dir Join
    exact NewDefaultConfigLoader_ok defaultRules dir Join fileList

/-- The chain on a successful listing: the primary descriptor, then one descriptor
per entry that `deduplicateFiles` keeps and the filter lets through. -/
theorem NewDefaultConfigLoader_dedup_then_filter (defaultRules : ClientConfigLoadingRules)
    (dir : String) (Join : String → String → String) (fileList : List FileInfo) :
    NewDefaultConfigLoader defaultRules dir Join (.ok fileList)
      = defaultRules ::
          ((keepFirstByName fileList).filter
              (fun f => !f.IsDir && HasSuffix f.Name kubeconfigSuffix)).map
            (fun f => { ExplicitPath := Join dir f.Name, Precedence := [] }) := by
  rw [NewDefaultConfigLoader_ok, scannerOutput, deduplicateFiles_eq_keepFirstByName]
  rfl

/-- Keeping the entries that pass the filter and whose name no earlier entry of
the listing carries is filtering the first occurrences. -/
theorem scanSeenInListing_eq (xs : List FileInfo) :
    ∀ earlier, scanSeenInListing earlier xs
      = (keepFirstFrom FileInfo.Name earlier xs).filter isKubeconfigFile := by
  induction xs with
  | nil => intro earlier; simp [scanSeenInListing, keepFirstFrom]
  | cons f rest ih =>
    intro earlier
    simp only [scanSeenInListing, keepFirstFrom]
    by_cases hmem : f.Name ∈ earlier.map FileInfo.Name
    · rw [if_neg (fun h => h.2 hmem), if_pos hmem, ih]
    · rw [if_neg hmem, List.filter_cons]
      by_cases hk : isKubeconfigFile f = true
      · rw [if_pos ⟨hk, hmem⟩, if_pos hk, ih]
      · rw [if_neg (fun h => hk h.1), if_neg hk, ih]

/-- On a listing without repeated names, as `ioutil.ReadDir` returns them, the
order of the filter and the deduplication makes no difference. -/
theorem scan_orders_agree_of_nodup (fileList : List FileInfo)
    (h : (fileList.map FileInfo.Name).Nodup) :
    scanFilterThenDedup fileList = scannerOutput fileList := by
  unfold scanFilterThenDedup scannerOutput keepFirstByName
  rw [deduplicateFiles_eq_keepFirstByName]
  unfold keepFirstByName
  rw [keepFirstFrom_of_nodup FileInfo.Name fileList [] h (by simp)]
  exact keepFirstFrom_of_nodup FileInfo.Name _ []
    (h.sublist ((List.filter_sublist _).map FileInfo.Name)) (by simp)

/-- C5. On a successful listing the chain is the primary descriptor followed by one
descriptor per scanner result, in scanner order, whose `ExplicitPath` is the
recommended directory joined with the file name. The scanner result is the
entries that are not directories, end with `.kubeconfig` and whose name no
earlier entry of the listing carries; on a listing without repeated names, as
`ioutil.ReadDir` returns them, it is also the result of filtering first and
removing the names seen earlier afterwards. -/
theorem NewDefaultConfigLoader_chain_of_scanner (defaultRules : ClientConfigLoadingRules)
    (dir : String) (Join : String → String → String) (fileList : List FileInfo) :
    NewDefaultConfigLoader defaultRules dir Join (.ok fileList)
      = defaultRules ::
          (scanSeenInListing [] fileList).map
            (fun f => { ExplicitPath := Join dir f.Name, Precedence := [] }) ∧
    ((fileList.map FileInfo.Name).Nodup →
      NewDefaultConfigLoader defaultRules dir Join (.ok fileList)
        = defaultRules ::
            (scanFilterThenDedup fileList).map
              (fun f => { ExplicitPath := Join dir f.Name, Precedence := [] })) := by
  constructor
  · rw [NewDefaultConfigLoader_ok, scannerOutput, deduplicateFiles_eq_keepFirstByName,
      scanSeenInListing_eq]
    rfl
  · intro h
    rw [NewDefaultConfigLoader_ok, scan_orders_agree_of_nodup fileList h]
    rfl

/-- C5 at a sorted listing of the recommended directory: a directory and a file
without the suffix are left out and the two discovered files follow the primary
in listing order. -/
theorem NewDefaultConfigLoader_chain_of_scanner_witness :
    (exListing.map FileInfo.Name).Nodup ∧
    scanFilterThenDedup exListing
      = [⟨"broken.kubeconfig", false⟩, ⟨"extra.kubeconfig", false⟩] ∧
    NewDefaultConfigLoader exPrimary exDir exJoin (.ok exListing)
      = exPrimary ::
          (scanFilterThenDedup exListing).map
            (fun f => { ExplicitPath := exJoin exDir f.Name, Precedence := [] }) :=
  ⟨by decide, by decide,
   (NewDefaultConfigLoader_chain_of_scanner exPrimary exDir exJoin exListing).2 (by decide)⟩

/-- C4, as stated, fails: when the directory cannot be listed the chain is not the
singleton of the primary descriptor. -/
theorem NewDefaultConfigLoader_unlistable_not_primary :
    NewDefaultConfigLoader exPrimary exDir exJoin (.error exMissingError) ≠ [exPrimary] := by
  decide

/-- C4, amended. When the recommended directory cannot be listed, the chain
returned by `NewDefaultConfigLoader` is empty. -/
theorem NewDefaultConfigLoader_unlistable_empty (defaultRules : ClientConfigLoadingRules)
    (dir : String) (Join : String → String → String) (e : Error) :
    NewDefaultConfigLoader defaultRules dir Join (.error e) = [] := rfl

/-- On the empty chain `GetStartingConfig` is the default path options' starting
configuration and `GetConfigs` lists nothing. -/
theorem empty_chain_queries (read : ClientConfigLoadingRules → Except Error Config)
    (defaultStart : Except Error Config) :
    GetStartingConfig read defaultStart [] = defaultStart ∧
    GetConfigs read [] = { files := [], configs := [], err := none } :=
  ⟨rfl, rfl⟩

/-- C1, as stated, fails: on a chain of two sources whose reads both succeed the
effective configuration is not the merge; cluster `A` stays at the primary's
`server1` and cluster `B`, defined only by the discovered source, is absent. -/
theorem GetStartingConfig_not_merge :
    (2 ≤ [exPrimary, exExtra].length ∧
      exRead exPrimary = .ok exPrimaryConfig ∧ exRead exExtra = .ok exExtraConfig) ∧
    GetStartingConfig exRead (.ok NewConfig) [exPrimary, exExtra] = .ok exPrimaryConfig ∧
    exPrimaryConfig.Clusters.lookup "A" = some ⟨"server1"⟩ ∧
    exPrimaryConfig.Clusters.lookup "B" = none ∧
    (mergeConfigs (readConfigs exRead [exPrimary, exExtra])).Clusters.lookup "A"
      = some ⟨"server2"⟩ ∧
    (mergeConfigs (readConfigs exRead [exPrimary, exExtra])).Clusters.lookup "B"
      = some ⟨"server3"⟩ ∧
    ¬ EffectiveIsMerge exRead (.ok NewConfig) [exPrimary, exExtra] := by
  refine ⟨⟨by decide, rfl, rfl⟩, rfl, by decide, by decide, by decide, by decide, ?_⟩
  rintro ⟨c, hc, h⟩
  have hc' : c = exPrimaryConfig := by
    have h0 : GetStartingConfig exRead (.ok NewConfig) [exPrimary, exExtra]
        = .ok exPrimaryConfig := rfl
    rw [h0] at hc
    exact (Except.ok.inj hc).symm
  subst hc'
  have hA := (h "A").1
  revert hA
  decide

/-- C1, amended. On a chain of at least two sources whose first read succeeds,
the configuration returned by `GetStartingConfig` is the read result of the
first source alone: every cluster, context and user name resolves as it does in
the first source, whatever the later sources define. -/
theorem GetStartingConfig_is_first_source
    (read : ClientConfigLoadingRules → Except Error Config)
    (defaultStart : Except Error Config) (first second : ClientConfigLoadingRules)
    (rest : ConfigLoader) (c : Config) (h : read first = .ok c) :
    ∃ c', GetStartingConfig read defaultStart (first :: second :: rest) = .ok c' ∧
      c' = c ∧
      ∀ name,
        c'.Clusters.lookup name = c.Clusters.lookup name ∧
        c'.Contexts.lookup name = c.Contexts.lookup name ∧
        c'.AuthInfos.lookup name = c.AuthInfos.lookup name :=
  ⟨c, h, rfl, fun _ => ⟨rfl, rfl, rfl⟩⟩

/-- C1, amended, at the chain of the counterexample. -/
theorem GetStartingConfig_is_first_source_witness :
    ∃ c', GetStartingConfig exRead (.ok NewConfig) [exPrimary, exExtra] = .ok c' ∧
      c' = exPrimaryConfig ∧
      ∀ name,
        c'.Clusters.lookup name = exPrimaryConfig.Clusters.lookup name ∧
        c'.Contexts.lookup name = exPrimaryConfig.Contexts.lookup name ∧
        c'.AuthInfos.lookup name = exPrimaryConfig.AuthInfos.lookup name :=
  GetStartingConfig_is_first_source exRead (.ok NewConfig) exPrimary exExtra []
    exPrimaryConfig rfl

/-- C2, as stated, fails: when the primary selects no current context and a
discovered source selects `ctx2`, the effective current context is empty. -/
theorem GetStartingConfig_context_not_first_non_empty :
    (exReadNoContext exPrimary = .ok exPrimaryNoContext ∧
      exReadNoContext exExtra = .ok exExtraConfig) ∧
    exPrimaryNoContext.CurrentContext = "" ∧
    exExtraConfig.CurrentContext = "ctx2" ∧
    (GetStartingConfig exReadNoContext (.ok NewConfig) [exPrimary, exExtra]).toOption.map
        Config.CurrentContext = some "" ∧
    (mergeConfigs (readConfigs exReadNoContext [exPrimary, exExtra])).CurrentContext
      = "ctx2" ∧
    ¬ CurrentContextIsFirstNonEmpty exReadNoContext (.ok NewConfig) [exPrimary, exExtra] := by
  refine ⟨⟨rfl, rfl⟩, rfl, rfl, rfl, by decide, ?_⟩
  rintro ⟨c, hc, h⟩
  have hc' : c = exPrimaryNoContext := by
    have h0 : GetStartingConfig exReadNoContext (.ok NewConfig) [exPrimary, exExtra]
        = .ok exPrimaryNoContext := rfl
    rw [h0] at hc
    exact (Except.ok.inj hc).symm
  subst hc'
  revert h
  decide

/-- C2, amended. On a non-empty chain whose first read succeeds, the current
context of the configuration returned by `GetStartingConfig` is the current
context of the first source, empty or not; when it is non-empty it is the first
non-empty current context of the chain, whatever later sources define. -/
theorem GetStartingConfig_context_is_first_source
    (read : ClientConfigLoadingRules → Except Error Config)
    (defaultStart : Except Error Config) (first : ClientConfigLoadingRules)
    (rest : ConfigLoader) (c : Config) (h : read first = .ok c) :
    ∃ c', GetStartingConfig read defaultStart (first :: rest) = .ok c' ∧
      c'.CurrentContext = c.CurrentContext ∧
      (c.CurrentContext ≠ "" →
        c'.CurrentContext
          = (mergeConfigs (readConfigs read (first :: rest))).CurrentContext) := by
  refine ⟨c, h, rfl, ?_⟩
  intro hne
  have ho : (read first).toOption = some c := by rw [h]; rfl
  simp [mergeConfigs, readConfigs, ho, hne]

/-- C2, amended, at a chain whose two sources select different current contexts,
and at the chain of the counterexample. -/
theorem GetStartingConfig_context_is_first_source_witness :
    (∃ c', GetStartingConfig exRead (.ok NewConfig) [exPrimary, exExtra] = .ok c' ∧
      c'.CurrentContext = "ctx1" ∧
      ("ctx1" ≠ "" → c'.CurrentContext
        = (mergeConfigs (readConfigs exRead [exPrimary, exExtra])).CurrentContext)) ∧
    (∃ c', GetStartingConfig exReadNoContext (.ok NewConfig) [exPrimary, exExtra] = .ok c' ∧
      c'.CurrentContext = "" ∧
      ("" ≠ "" → c'.CurrentContext
        = (mergeConfigs (readConfigs exReadNoContext [exPrimary, exExtra])).CurrentContext)) :=
  ⟨GetStartingConfig_context_is_first_source exRead (.ok NewConfig) exPrimary [exExtra]
      exPrimaryConfig rfl,
   GetStartingConfig_context_is_first_source exReadNoContext (.ok NewConfig) exPrimary
      [exExtra] exPrimaryNoContext rfl⟩

/-- C7. `getConfigFromFile` returns the empty configuration and no error when the
load fails with a does-not-exist error, `nil` and the load's error when it fails
with any other error, and the loaded configuration and no error when the load
succeeds; it fails exactly when the load fails with an error other than
does-not-exist. -/
theorem getConfigFromFile_cases (LoadFromFile : String → Option Config × Option Error)
    (filename : String) :
    (∀ e, LoadFromFile filename = (none, some e) → IsNotExist e = true →
        getConfigFromFile LoadFromFile filename = (some NewConfig, none)) ∧
    (∀ config e, LoadFromFile filename = (config, some e) → IsNotExist e = false →
        getConfigFromFile LoadFromFile filename = (none, some e)) ∧
    (∀ c, LoadFromFile filename = (some c, none) →
        getConfigFromFile LoadFromFile filename = (some c, none)) ∧
    ((getConfigFromFile LoadFromFile filename).2 ≠ none ↔
        ∃ config e, LoadFromFile filename = (config, some e) ∧ IsNotExist e = false) := by
  refine ⟨?_, ?_, ?_, ?_⟩
  · intro e h hne
    simp [getConfigFromFile, h, hne]
  · intro config e h hne
    simp [getConfigFromFile, h, hne]
  · intro c h
    simp [getConfigFromFile, h]
  · rcases hl : LoadFromFile filename with ⟨config, err⟩
    cases err with
    | none => cases config <;> simp [getConfigFromFile, hl]
    | some e =>
      cases hne : IsNotExist e <;> cases config <;> simp [getConfigFromFile, hl, hne] <;>
        exact ⟨_, _, ⟨rfl, rfl⟩, hne⟩

/-- C7 at a missing file, a malformed file and a well-formed file. -/
theorem getConfigFromFile_cases_witness :
    getConfigFromFile exLoadFromFile "/home/u/.kube/none.kubeconfig" = (some NewConfig, none) ∧
    getConfigFromFile exLoadFromFile "/home/u/.kube/broken.kubeconfig"
      = (none, some exParseError) ∧
    getConfigFromFile exLoadFromFile "/home/u/.kube/config" = (some exPrimaryConfig, none) :=
  ⟨(getConfigFromFile_cases exLoadFromFile "/home/u/.kube/none.kubeconfig").1
      exMissingError (by decide) (by decide),
   (getConfigFromFile_cases exLoadFromFile "/home/u/.kube/broken.kubeconfig").2.1
      none exParseError (by decide) (by decide),
   (getConfigFromFile_cases exLoadFromFile "/home/u/.kube/config").2.2.1
      exPrimaryConfig (by decide)⟩

/-- C9, as stated, fails: the origin path reported for the primary source is the
empty string. -/
theorem GetConfigs_primary_origin_empty :
    exRead exPrimary = .ok exPrimaryConfig ∧
    NewDefaultConfigLoader exPrimary exDir exJoin (.ok exListing)
      = [exPrimary, exBroken, exExtra] ∧
    GetConfigs exRead (NewDefaultConfigLoader exPrimary exDir exJoin (.ok exListing))
      = { files := ["", "/home/u/.kube/extra.kubeconfig"]
          configs := [exPrimaryConfig, exExtraConfig]
          err := none } ∧
    ¬ (∀ p, (GetConfigs exRead
          (NewDefaultConfigLoader exPrimary exDir exJoin (.ok exListing))).files.head? = some p →
        p ≠ "") := by
  refine ⟨rfl, by decide, by decide, ?_⟩
  intro h
  exact h "" (by decide) rfl

/-- C9, amended. For the chain built by `NewDefaultConfigLoader`, the origin paths
`GetConfigs` reports are: for the primary source the `ExplicitPath` of the
default descriptor, unchanged, and for each discovered source the recommended
directory joined with the discovered file's name, each reported when its read
succeeds; an unlistable directory gives no origin at all. -/
theorem GetConfigs_origins (read : ClientConfigLoadingRules → Except Error Config)
    (defaultRules : ClientConfigLoadingRules) (dir : String)
    (Join : String → String → String) (fileList : List FileInfo) (e : Error) :
    (GetConfigs read (NewDefaultConfigLoader defaultRules dir Join (.ok fileList))).files
      = (if (read defaultRules).toOption.isSome then [defaultRules.ExplicitPath] else [])
        ++ ((scannerOutput fileList).filter
              (fun f => (read (discoveredRule dir Join f)).toOption.isSome)).map
            (fun f => Join dir f.Name) ∧
    (GetConfigs read (NewDefaultConfigLoader defaultRules dir Join (.error e))).files = [] := by
  constructor
  · rw [(GetConfigs_files_eq read _), NewDefaultConfigLoader_ok]
    rw [List.filter_cons, List.filter_map]
    cases h : (read defaultRules).toOption.isSome <;>
      simp [h, discoveredRule, Function.comp_def]
  · rfl

end Kluster
